import Mathlib

/-!
Verification of the Recurring Capture Scheduler & Durable Storage/Ledger
Pipeline of the source_ai_mvp repository.

The relational data model is embedded from the SQL schema
(migrations, `earning_events` / `earning_balances` / `user_consent` /
`photos` / `users` tables) and the frontend service types
(`frontend/src/services/api.ts`: `Schedule`, `PhotoCaptureResponse`).
The backend scheduler service itself (ledger append, scheduler loop,
capture orchestrator, storage writer) is not present in the repository
source tree — only its schema, HTTP client, and design documents are —
so those operations are modelled from the specification, as marked on
each definition.

Timestamps are modelled as natural numbers (seconds); money amounts as
unbounded integers (`amount_cents INT`, `balance_cents BIGINT`);
storage keys and raw bytes as lists.
-/

namespace SourceAi

/-- A row of the `earning_events` table: immutable earning ledger event
(`id`/`created_at` columns omitted; `user_id`, `photo_id` nullable
foreign key, `amount_cents INT`, `reason`). -/
structure EarningEvent where
  user_id : Nat
  photo_id : Option Nat
  amount_cents : Int
  reason : String
deriving DecidableEq

/-- A row of the `earning_balances` table: `user_id` primary key,
`balance_cents BIGINT` (the `updated_at` column is omitted). -/
structure BalanceRow where
  user_id : Nat
  balance_cents : Int
deriving DecidableEq

/-- Look up a balance row by user id in a list of balance rows
(first match, as for a primary-key lookup). -/
def balLookup (u : Nat) : List BalanceRow → Option Int
  | [] => none
  | b :: bs => if b.user_id = u then some b.balance_cents else balLookup u bs

/-- Add `amt` to every balance row of user `u` (the SQL
`UPDATE earning_balances SET balance_cents = balance_cents + amt
WHERE user_id = u`). -/
def bumpBalance (u : Nat) (amt : Int) : List BalanceRow → List BalanceRow :=
  List.map (fun b => if b.user_id = u then ⟨b.user_id, b.balance_cents + amt⟩ else b)

/-- Insert a zero balance row for `u` if none exists yet. -/
def ensureBalance (u : Nat) (bs : List BalanceRow) : List BalanceRow :=
  if (balLookup u bs).isSome then bs else bs ++ [⟨u, 0⟩]

/-- The ledger: the `earning_events` rows together with the
`earning_balances` rows. -/
structure LedgerState where
  events : List EarningEvent
  balances : List BalanceRow
deriving DecidableEq

/-- The ledger of a fresh database: no events, no balances. -/
def emptyLedger : LedgerState := ⟨[], []⟩

/-- The arguments of one `appendEarning` call. -/
structure LedgerCall where
  user_id : Nat
  amount_cents : Int
  photo_id : Option Nat
  reason : String
deriving DecidableEq

/-- Modelled from the spec: `appendEarning(user_id, amount_cents,
photo_id, reason)` — the ledger service implementation is not in the
source tree. Within one atomic unit of work it inserts the EarningEvent
row and updates EarningBalance (`balance_cents += amount_cents`),
creating the EarningBalance row with `balance_cents = 0` first if
absent. -/
def appendEarning (c : LedgerCall) (st : LedgerState) : LedgerState :=
  { events := st.events ++ [⟨c.user_id, c.photo_id, c.amount_cents, c.reason⟩],
    balances := bumpBalance c.user_id c.amount_cents (ensureBalance c.user_id st.balances) }

/-- Sum of `amount_cents` over the events of user `u`. -/
def eventsSum (u : Nat) : List EarningEvent → Int
  | [] => 0
  | e :: es => (if e.user_id = u then e.amount_cents else 0) + eventsSum u es

/-- Run a sequence of `appendEarning` calls against the fresh ledger. -/
def runLedger (calls : List LedgerCall) : LedgerState :=
  calls.foldl (fun st c => appendEarning c st) emptyLedger

/-- A schedule row, from the frontend `Schedule` interface
(`frontend/src/services/api.ts`): `id`, `user_id`, `frequency_hours`,
`notifications_enabled`, `silent_mode_enabled`, `is_active`,
`last_triggered_at` (nullable timestamp), `trigger_count`
(`created_at`/`updated_at` omitted). -/
structure Schedule where
  id : Nat
  user_id : String
  frequency_hours : Nat
  notifications_enabled : Bool
  silent_mode_enabled : Bool
  is_active : Bool
  last_triggered_at : Option Nat
  trigger_count : Nat
deriving DecidableEq

/-- Modelled from the spec: `recordTrigger(id, at)` of the Schedule
Registry (not in the source tree) increments `trigger_count` and sets
`last_triggered_at`. -/
def recordTrigger (t : Nat) (s : Schedule) : Schedule :=
  { s with trigger_count := s.trigger_count + 1, last_triggered_at := some t }

/-- The terminal outcome of one capture session as observed by the
scheduler loop: success at a completion time, or terminal failure. -/
inductive FireOutcome where
  | success (t : Nat)
  | failure
deriving DecidableEq

/-- Modelled from the spec: the scheduler loop's post-completion hook
(not in the source tree) calls `recordTrigger` only on success; a
failed session leaves the schedule untouched. -/
def applyOutcome (s : Schedule) : FireOutcome → Schedule
  | .success t => recordTrigger t s
  | .failure => s

/-- Fold a sequence of session outcomes into a schedule. -/
def applyOutcomes (s : Schedule) (outs : List FireOutcome) : Schedule :=
  outs.foldl applyOutcome s

/-- Number of successful fires in a sequence of outcomes. -/
def countSuccess : List FireOutcome → Nat
  | [] => 0
  | .success _ :: rest => countSuccess rest + 1
  | .failure :: rest => countSuccess rest

/-- The completion times of the successes are in chronological order,
and not before the given last-trigger timestamp. -/
def chronoFrom (last : Option Nat) : List FireOutcome → Bool
  | [] => true
  | .failure :: rest => chronoFrom last rest
  | .success t :: rest =>
      (match last with
       | none => true
       | some u => decide (u ≤ t)) && chronoFrom (some t) rest

/-- Ordering on nullable timestamps: a null start is below everything;
a set timestamp may only move to a later (or equal) set timestamp. -/
def timeLe : Option Nat → Option Nat → Bool
  | none, _ => true
  | some _, none => false
  | some u, some v => decide (u ≤ v)

/-- An hour in seconds: timestamps are seconds, frequencies whole hours. -/
def secondsPerHour : Nat := 3600

/-- Modelled from the spec: the scheduler loop's due query (not in the
source tree) selects a schedule when it is active and either never
triggered (first run due immediately) or
`now ≥ last_triggered_at + frequency`. -/
def isDue (now : Nat) (s : Schedule) : Bool :=
  s.is_active &&
    match s.last_triggered_at with
    | none => true
    | some t => decide (t + s.frequency_hours * secondsPerHour ≤ now)

/-- The error taxonomy of the scheduler service, from the spec §7. -/
inductive SchedulerError where
  | invalidFrequency
deriving DecidableEq

/-- Modelled from the spec: `create(user_id, frequency, flags)` of the
Schedule Registry (not in the source tree; the frequency validation
`ge=1` on `collection_frequency_hours` appears in the backend data-model
sketch). Fails with `InvalidFrequency` if the frequency is below one
hour; otherwise returns a fresh active schedule. -/
def createSchedule (nextId : Nat) (user : String) (freqHours : Nat)
    (notif silent : Bool) : Except SchedulerError Schedule :=
  if freqHours < 1 then .error .invalidFrequency
  else .ok ⟨nextId, user, freqHours, notif, silent, true, none, 0⟩

/-- Modelled from the spec: `pause(id)` of the Schedule Registry (not in
the source tree; the frontend posts to `/scheduler/schedules/id/pause`).
Clears `active` idempotently, never an error. -/
def pauseSchedule (s : Schedule) : Except SchedulerError Schedule :=
  .ok { s with is_active := false }

/-- Modelled from the spec: `resume(id)` of the Schedule Registry (not
in the source tree; the frontend posts to
`/scheduler/schedules/id/resume`). Sets `active` idempotently, never an
error. -/
def resumeSchedule (s : Schedule) : Except SchedulerError Schedule :=
  .ok { s with is_active := true }

/-- Which backing store holds an artifact. -/
inductive Tier where
  | primary
  | fallback
deriving DecidableEq

/-- The storage writer's error: both tiers exhausted. -/
inductive StorageError where
  | storageUnavailable
deriving DecidableEq

/-- Whether some attempt in a sequential primary-store attempt budget
succeeds (the writer stops at the first success). -/
def primarySucceeds : List Bool → Bool
  | [] => false
  | a :: rest => a || primarySucceeds rest

/-- Modelled from the spec: `store(bytes, key_hint)` of the Storage
Writer (not in the source tree; the S3 setup guide describes the
primary-then-fallback behavior). The primary store is attempted first
over a bounded attempt budget; on success the key is written at tier
PRIMARY. If every primary attempt fails, the fallback store is tried
and a success is tagged tier FALLBACK. If the fallback also fails the
call fails with `StorageUnavailable`. Each attempt's outcome is an
entry of `primaryAttempts` / the `fallbackOk` flag. -/
def store (keyHint : List Char) (primaryAttempts : List Bool)
    (fallbackOk : Bool) : Except StorageError (List Char × Tier) :=
  if primarySucceeds primaryAttempts then .ok (keyHint, .primary)
  else if fallbackOk then .ok (keyHint, .fallback)
  else .error .storageUnavailable

/-- Modelled from the spec: storage keys are
`user_id/timestamp_id.ext` (the S3 guide nests these under a bucket
folder); characters are modelled as a list. -/
def makeKey (u tsId ext : List Char) : List Char :=
  u ++ '/' :: (tsId ++ '.' :: ext)

/-- The user segment of a storage key: everything before the first
slash. -/
def keyOwner : List Char → List Char
  | [] => []
  | c :: cs => if c = '/' then [] else c :: keyOwner cs

/-- An object store's contents: an association of keys to byte
sequences (one object per key, as in S3). -/
def ObjectStore : Type := List (List Char × List Nat)

/-- Modelled from the spec: a PUT on the object store — overwrites the
object at the key if present, otherwise appends it; re-attempting a PUT
with the same key is idempotent, never duplicated. -/
def putObject (k : List Char) (b : List Nat) : ObjectStore → ObjectStore
  | [] => [(k, b)]
  | e :: es => if e.1 = k then (k, b) :: es else e :: putObject k b es

/-- The capture-session state machine's states, from the spec §3. -/
inductive SessionStatus where
  | pending
  | capturing
  | validating
  | storing
  | recording
  | succeeded
  | failed
deriving DecidableEq

/-- The external validity verdict: `validate(bytes) → (is_valid, notes)`. -/
structure Verdict where
  is_valid : Bool
  notes : String
deriving DecidableEq

/-- The external capture capability's outcome: raw bytes or an error
detail. -/
inductive CaptureOutcome where
  | captured (bytes : List Nat)
  | captureFailed (detail : String)
deriving DecidableEq

/-- The consent gate's decision for the user at capture time:
whether the current consent grants the photo-monetization scope, and
whether consent explicitly forbids storage. -/
structure ConsentDecision where
  grantsMonetization : Bool
  forbidsStorage : Bool
deriving DecidableEq

/-- Everything external the orchestrator consumes during one session:
the capture outcome, the validity verdict, the consent decision, and
the storage attempt outcomes. -/
structure SessionEnv where
  capture : CaptureOutcome
  verdict : Verdict
  consent : ConsentDecision
  primaryAttempts : List Bool
  fallbackOk : Bool
deriving DecidableEq

/-- A `photos` row as produced by one session (PhotoArtifact):
`storage_key`/`storage_tier` are null when the artifact was discarded,
`is_valid` is the verdict, `monetizable` is derived. The artifact is
identified by its session. -/
structure PhotoArtifact where
  session_id : Nat
  storage_key : Option (List Char)
  storage_tier : Option Tier
  is_valid : Bool
  monetizable : Bool
deriving DecidableEq

/-- The orchestrator's result for one session: terminal status, failure
reason, the artifact record (if any), and the earning events created by
the session. -/
structure SessionResult where
  status : SessionStatus
  failure_reason : Option String
  artifact : Option PhotoArtifact
  earnings : List EarningEvent
deriving DecidableEq

/-- Modelled from the spec: the Capture Orchestrator (not in the source
tree) runs one session: capture → validate → consent gate → store →
record. A capture failure or a `StorageUnavailable` is terminal FAILED;
an invalid verdict is not a failure — the session succeeds with
`monetizable = false` and no earning event; an earning event is created
exactly when the stored artifact is monetizable. -/
def runSession (userId sessionId : Nat) (keyHint : List Char)
    (rate : Int) (env : SessionEnv) : SessionResult :=
  match env.capture with
  | .captureFailed d => ⟨.failed, some ("capture_error:" ++ d), none, []⟩
  | .captured _ =>
    let valid := env.verdict.is_valid
    let monetizable := valid && env.consent.grantsMonetization
    if env.consent.forbidsStorage then
      ⟨.succeeded, none, some ⟨sessionId, none, none, valid, monetizable⟩, []⟩
    else
      match store keyHint env.primaryAttempts env.fallbackOk with
      | .error .storageUnavailable => ⟨.failed, some "storage_error", none, []⟩
      | .ok (key, tier) =>
        ⟨.succeeded, none,
         some ⟨sessionId, some key, some tier, valid, monetizable⟩,
         if monetizable then [⟨userId, some sessionId, rate, "photo_capture"⟩] else []⟩

/-- A capture-session row: `schedule_id` is null for manual triggers. -/
structure CaptureSession where
  id : Nat
  user_id : String
  schedule_id : Option Nat
  status : SessionStatus
deriving DecidableEq

/-- The manual-trigger response, from the frontend
`PhotoCaptureResponse` interface. -/
structure PhotoCaptureResponse where
  success : Bool
  capture_session_id : Nat
  user_id : String
  message : String
deriving DecidableEq

/-- The scheduler service's persistent state: schedules, capture
sessions, and a session id counter. -/
structure SchedulerState where
  schedules : List Schedule
  sessions : List CaptureSession
  nextSessionId : Nat
deriving DecidableEq

/-- Modelled from the spec: the manual capture endpoint
(`POST /capture/capture`, client in `frontend/src/services/api.ts`)
creates a CaptureSession with `schedule_id = null` — consulting no
schedule and no due-check — and returns immediately with that session's
id for the caller to poll. -/
def triggerManualCapture (u : String) (st : SchedulerState) :
    SchedulerState × PhotoCaptureResponse :=
  let sess : CaptureSession := ⟨st.nextSessionId, u, none, .pending⟩
  ({ st with sessions := st.sessions ++ [sess],
             nextSessionId := st.nextSessionId + 1 },
   ⟨true, sess.id, u, "Photo capture session started"⟩)

/-- A `photos` table row for the cascade analysis: `user_id` is a
nullable foreign key with `ON DELETE SET NULL` (other columns omitted
except the identifying ones). -/
structure PhotoRow where
  id : Nat
  filename : String
  original_key : String
  user_id : Option Nat
deriving DecidableEq

/-- A `user_consent` table row: `user_id` references `users`
`ON DELETE CASCADE`; primary key `(user_id, version)`. -/
structure ConsentRow where
  user_id : Nat
  version : String
  scope : String
  granted_at : Nat
  revoked_at : Option Nat
deriving DecidableEq

/-- The relational database state over the schema's tables relevant to
user deletion (users keyed by their integer id). -/
structure Db where
  users : List Nat
  photos : List PhotoRow
  user_consent : List ConsentRow
  earning_events : List EarningEvent
  earning_balances : List BalanceRow
deriving DecidableEq

/-- Deleting a `users` row, applying the schema's referential actions:
`photos.user_id` is `ON DELETE SET NULL`; `user_consent`,
`earning_events` and `earning_balances` rows of the user are
`ON DELETE CASCADE`. -/
def deleteUser (uid : Nat) (db : Db) : Db :=
  { users := db.users.filter (fun i => i != uid),
    photos := db.photos.map
      (fun p => if p.user_id = some uid then { p with user_id := none } else p),
    user_consent := db.user_consent.filter (fun c => c.user_id != uid),
    earning_events := db.earning_events.filter (fun e => e.user_id != uid),
    earning_balances := db.earning_balances.filter (fun b => b.user_id != uid) }

/-- A sample active schedule (hourly cadence, never triggered), used to
instantiate the theorems on concrete inputs. -/
def sampleActive : Schedule := ⟨1, "user-1", 1, true, false, true, none, 0⟩

/-- The sample schedule in its paused state. -/
def samplePaused : Schedule := ⟨1, "user-1", 1, true, false, false, none, 0⟩

/-- A sample sequence of session outcomes: two successes around one
terminal failure. -/
def sampleOuts : List FireOutcome := [.success 100, .failure, .success 4000]

/-- A sample database population for the cascade analysis. -/
def sampleDb : Db :=
  { users := [1, 2],
    photos := [⟨10, "a.jpg", "user-1/a.jpg", some 1⟩, ⟨11, "b.jpg", "user-2/b.jpg", some 2⟩],
    user_consent := [⟨1, "v1", "photo_monetization", 0, none⟩],
    earning_events := [⟨1, some 10, 5, "photo_capture"⟩],
    earning_balances := [⟨1, 5⟩] }

/-- A sample session environment: capture succeeds, the verdict is
invalid, consent grants monetization and allows storage, the first two
primary attempts fail and the third succeeds. -/
def sampleEnv : SessionEnv :=
  { capture := .captured [7, 7, 7],
    verdict := ⟨false, "no face"⟩,
    consent := ⟨true, false⟩,
    primaryAttempts := [false, false, true],
    fallbackOk := true }

/-! ## Ledger lemmas -/

theorem eventsSum_append (u : Nat) (es : List EarningEvent) (e : EarningEvent) :
    eventsSum u (es ++ [e])
      = eventsSum u es + (if e.user_id = u then e.amount_cents else 0) := by
  induction es with
  | nil => simp [eventsSum]
  | cons a as ih => simp [eventsSum, ih, add_assoc]

theorem balLookup_append_single_none (u : Nat) (bs : List BalanceRow)
    (h : balLookup u bs = none) : balLookup u (bs ++ [⟨u, 0⟩]) = some 0 := by
  induction bs with
  | nil => simp [balLookup]
  | cons b rest ih =>
      rw [balLookup] at h
      rw [List.cons_append, balLookup]
      by_cases hb : b.user_id = u
      · simp [hb] at h
      · simp only [hb, if_false] at h ⊢
        exact ih h

theorem balLookup_append_single_ne (v u : Nat) (bs : List BalanceRow)
    (h : v ≠ u) : balLookup v (bs ++ [⟨u, 0⟩]) = balLookup v bs := by
  induction bs with
  | nil =>
      simp only [List.nil_append, balLookup]
      rw [if_neg]
      exact fun hh => h hh.symm
  | cons b rest ih =>
      rw [List.cons_append, balLookup, balLookup]
      by_cases hb : b.user_id = v
      · simp [hb]
      · simp only [hb, if_false]
        exact ih

theorem balLookup_ensure_self (u : Nat) (bs : List BalanceRow) :
    balLookup u (ensureBalance u bs) = some ((balLookup u bs).getD 0) := by
  unfold ensureBalance
  cases h : balLookup u bs with
  | some x => simp [h]
  | none => simp [h, balLookup_append_single_none u bs h]

theorem balLookup_ensure_ne (v u : Nat) (bs : List BalanceRow) (h : v ≠ u) :
    balLookup v (ensureBalance u bs) = balLookup v bs := by
  unfold ensureBalance
  cases hs : (balLookup u bs).isSome with
  | true => simp
  | false => simp [balLookup_append_single_ne v u bs h]

theorem balLookup_bump_self (u : Nat) (amt : Int) (bs : List BalanceRow) :
    balLookup u (bumpBalance u amt bs) = (balLookup u bs).map (· + amt) := by
  induction bs with
  | nil => simp [balLookup, bumpBalance]
  | cons b rest ih =>
      rw [bumpBalance, List.map_cons]
      by_cases hb : b.user_id = u
      · simp [balLookup, hb]
      · simp only [hb, if_false]
        rw [balLookup, balLookup, if_neg hb, if_neg hb]
        exact ih

theorem balLookup_bump_ne (v u : Nat) (amt : Int) (bs : List BalanceRow)
    (h : v ≠ u) : balLookup v (bumpBalance u amt bs) = balLookup v bs := by
  induction bs with
  | nil => simp [balLookup, bumpBalance]
  | cons b rest ih =>
      rw [bumpBalance, List.map_cons]
      by_cases hb : b.user_id = u
      · rw [balLookup, balLookup, if_neg, if_neg]
        · exact ih
        · rw [hb]; exact fun hh => h hh.symm
        · simp [hb]; exact fun hh => h hh.symm
      · simp only [hb, if_false]
        rw [balLookup, balLookup]
        by_cases hv : b.user_id = v
        · simp [hv]
        · simp only [hv, if_false]
          exact ih

theorem appendEarning_preserves_inv (c : LedgerCall) (st : LedgerState)
    (h : ∀ u, eventsSum u st.events = (balLookup u st.balances).getD 0) :
    ∀ u, eventsSum u (appendEarning c st).events
      = (balLookup u (appendEarning c st).balances).getD 0 := by
  intro u
  unfold appendEarning
  simp only
  rw [eventsSum_append]
  by_cases hu : u = c.user_id
  · subst hu
    rw [balLookup_bump_self, balLookup_ensure_self]
    simp [h c.user_id]
  · rw [balLookup_bump_ne _ _ _ _ hu, balLookup_ensure_ne _ _ _ hu]
    have : (⟨c.user_id, c.photo_id, c.amount_cents, c.reason⟩ : EarningEvent).user_id = u ↔ False := by
      simp; exact fun hh => hu hh.symm
    simp only [this, if_false]
    simpa using h u

theorem runLedger_foldl_inv (calls : List LedgerCall) (st : LedgerState)
    (h : ∀ u, eventsSum u st.events = (balLookup u st.balances).getD 0) :
    ∀ u, eventsSum u (calls.foldl (fun s c => appendEarning c s) st).events
      = (balLookup u (calls.foldl (fun s c => appendEarning c s) st).balances).getD 0 := by
  induction calls generalizing st with
  | nil => simpa using h
  | cons c rest ih =>
      intro u
      rw [List.foldl_cons]
      exact ih (appendEarning c st) (appendEarning_preserves_inv c st h) u

/-- C1: `appendEarning` inserts exactly one EarningEvent row and, in the
same unit of work, adds `amount_cents` to the user's EarningBalance,
creating the balance row at 0 if absent; consequently, after any
sequence of appends against a fresh ledger, the sum of a user's event
amounts equals that user's balance (an absent balance row reading as
zero). -/
theorem C1_appendEarning_balance_invariant :
    (∀ (c : LedgerCall) (st : LedgerState),
        (appendEarning c st).events
          = st.events ++ [⟨c.user_id, c.photo_id, c.amount_cents, c.reason⟩] ∧
        balLookup c.user_id (appendEarning c st).balances
          = some ((balLookup c.user_id st.balances).getD 0 + c.amount_cents)) ∧
    (∀ (calls : List LedgerCall) (u : Nat),
        eventsSum u (runLedger calls).events
          = (balLookup u (runLedger calls).balances).getD 0) := by
  constructor
  · intro c st
    constructor
    · rfl
    · show balLookup c.user_id
        (bumpBalance c.user_id c.amount_cents (ensureBalance c.user_id st.balances))
          = some ((balLookup c.user_id st.balances).getD 0 + c.amount_cents)
      rw [balLookup_bump_self, balLookup_ensure_self]
      rfl
  · intro calls u
    have hstart : ∀ v, eventsSum v emptyLedger.events
        = (balLookup v emptyLedger.balances).getD 0 := by
      intro v; rfl
    exact runLedger_foldl_inv calls emptyLedger hstart u

/-! ## Schedule trigger-bookkeeping lemmas -/

theorem applyOutcomes_nil (s : Schedule) : applyOutcomes s [] = s := rfl

theorem applyOutcomes_cons (s : Schedule) (o : FireOutcome)
    (rest : List FireOutcome) :
    applyOutcomes s (o :: rest) = applyOutcomes (applyOutcome s o) rest := rfl

theorem applyOutcomes_trigger_count (s : Schedule) (outs : List FireOutcome) :
    (applyOutcomes s outs).trigger_count = s.trigger_count + countSuccess outs := by
  induction outs generalizing s with
  | nil => simp [applyOutcomes_nil, countSuccess]
  | cons o rest ih =>
      cases o with
      | success t =>
          rw [applyOutcomes_cons, ih]
          simp [applyOutcome, recordTrigger, countSuccess]
          omega
      | failure =>
          rw [applyOutcomes_cons, ih]
          simp [applyOutcome, countSuccess]

theorem timeLe_refl (a : Option Nat) : timeLe a a = true := by
  cases a <;> simp [timeLe]

theorem timeLe_trans (a b c : Option Nat) (h1 : timeLe a b = true)
    (h2 : timeLe b c = true) : timeLe a c = true := by
  cases a <;> cases b <;> cases c
  all_goals simp_all [timeLe]
  all_goals omega

theorem applyOutcomes_last_mono (s : Schedule) (outs : List FireOutcome)
    (hc : chronoFrom s.last_triggered_at outs = true) :
    timeLe s.last_triggered_at (applyOutcomes s outs).last_triggered_at = true := by
  induction outs generalizing s with
  | nil => rw [applyOutcomes_nil]; exact timeLe_refl _
  | cons o rest ih =>
      cases o with
      | failure =>
          rw [applyOutcomes_cons]
          exact ih s (by simpa [chronoFrom] using hc)
      | success t =>
          rw [applyOutcomes_cons]
          have hc2 : ((match s.last_triggered_at with
              | none => true
              | some u => decide (u ≤ t)) && chronoFrom (some t) rest) = true := hc
          rw [Bool.and_eq_true] at hc2
          refine timeLe_trans _ (some t) _ ?_ ?_
          · cases hl : s.last_triggered_at with
            | none => rfl
            | some u =>
                rw [hl] at hc2
                simpa [timeLe] using hc2.1
          · exact ih (recordTrigger t s) hc2.2

/-- C2: over any chronological sequence of session completions, the
trigger count after N successful fires grows by exactly N, a FAILED
session changes nothing (neither the count nor `last_triggered_at`),
the trigger count only increases, and `last_triggered_at` is
non-decreasing. -/
theorem C2_trigger_count_monotone (s : Schedule) (outs : List FireOutcome)
    (hc : chronoFrom s.last_triggered_at outs = true) :
    (applyOutcomes s outs).trigger_count = s.trigger_count + countSuccess outs ∧
    applyOutcome s .failure = s ∧
    s.trigger_count ≤ (applyOutcomes s outs).trigger_count ∧
    timeLe s.last_triggered_at (applyOutcomes s outs).last_triggered_at = true := by
  refine ⟨applyOutcomes_trigger_count s outs, rfl, ?_,
    applyOutcomes_last_mono s outs hc⟩
  rw [applyOutcomes_trigger_count]
  omega

/-- Witness for C2 on the sample schedule and outcome sequence. -/
theorem C2_trigger_count_monotone_witness :
    chronoFrom sampleActive.last_triggered_at sampleOuts = true ∧
    ((applyOutcomes sampleActive sampleOuts).trigger_count
        = sampleActive.trigger_count + countSuccess sampleOuts ∧
      applyOutcome sampleActive .failure = sampleActive ∧
      sampleActive.trigger_count ≤ (applyOutcomes sampleActive sampleOuts).trigger_count ∧
      timeLe sampleActive.last_triggered_at
        (applyOutcomes sampleActive sampleOuts).last_triggered_at = true) :=
  ⟨by decide, C2_trigger_count_monotone sampleActive sampleOuts (by decide)⟩

/-- C5: the due query selects a schedule exactly when it is active and
either never triggered or `now ≥ last_triggered_at + frequency`; and
after a successful fire at time `t`, the schedule is not due at any
instant before `t + frequency`. -/
theorem C5_due_query (now : Nat) (s : Schedule) :
    (isDue now s = true ↔
      s.is_active = true ∧
        (s.last_triggered_at = none ∨
          ∃ t, s.last_triggered_at = some t ∧
            t + s.frequency_hours * secondsPerHour ≤ now)) ∧
    (∀ t now2, now2 < t + s.frequency_hours * secondsPerHour →
        isDue now2 (recordTrigger t s) = false) := by
  constructor
  · rw [isDue]
    cases hl : s.last_triggered_at with
    | none => simp
    | some t => simp
  · intro t now2 h
    show ((recordTrigger t s).is_active &&
      decide (t + (recordTrigger t s).frequency_hours * secondsPerHour ≤ now2))
        = false
    have hd : decide
        (t + (recordTrigger t s).frequency_hours * secondsPerHour ≤ now2)
          = false := by
      simp [recordTrigger]
      omega
    rw [hd, Bool.and_false]

/-- Witness for C5: the hourly sample schedule is due immediately on
first tick, and after a fire at time 0 it is not due at 3599 seconds
but due again at 3600. -/
theorem C5_due_query_witness :
    isDue 0 sampleActive = true ∧
    isDue 3600 (recordTrigger 0 sampleActive) = true ∧
    (3599 < 0 + sampleActive.frequency_hours * secondsPerHour ∧
      isDue 3599 (recordTrigger 0 sampleActive) = false) :=
  ⟨by decide, by decide,
    ⟨by decide, (C5_due_query 3599 sampleActive).2 0 3599 (by decide)⟩⟩

/-- C6: creating a schedule with a frequency strictly below one hour
fails with `InvalidFrequency` and yields no schedule; any frequency of
at least one hour yields a schedule. -/
theorem C6_create_frequency_validation (nextId : Nat) (user : String)
    (freqHours : Nat) (notif silent : Bool) :
    (freqHours < 1 →
      createSchedule nextId user freqHours notif silent
        = .error .invalidFrequency) ∧
    (1 ≤ freqHours →
      createSchedule nextId user freqHours notif silent
        = .ok ⟨nextId, user, freqHours, notif, silent, true, none, 0⟩) := by
  constructor
  · intro h
    rw [createSchedule, if_pos h]
  · intro h
    rw [createSchedule, if_neg (by omega)]

/-- Witness for C6 at frequencies 0 (rejected) and 1 (accepted). -/
theorem C6_create_frequency_validation_witness :
    ((0 : Nat) < 1 ∧
      createSchedule 1 "user-1" 0 true false = .error .invalidFrequency) ∧
    ((1 : Nat) ≤ 1 ∧
      createSchedule 1 "user-1" 1 true false
        = .ok ⟨1, "user-1", 1, true, false, true, none, 0⟩) :=
  ⟨⟨by decide, (C6_create_frequency_validation 1 "user-1" 0 true false).1 (by decide)⟩,
   ⟨by decide, (C6_create_frequency_validation 1 "user-1" 1 true false).2 (by decide)⟩⟩

/-! ## Pause / resume lemmas -/

theorem pause_already_paused : ∀ (s : Schedule),
    s.is_active = false → pauseSchedule s = .ok s
  | ⟨_, _, _, _, _, a, _, _⟩, h => by cases h; rfl

theorem resume_already_active : ∀ (s : Schedule),
    s.is_active = true → resumeSchedule s = .ok s
  | ⟨_, _, _, _, _, a, _, _⟩, h => by cases h; rfl

/-- C9: pause and resume always return a schedule (never an error),
pausing an already-paused schedule and resuming an already-active one
are no-ops, and pause (resp. resume) is idempotent. -/
theorem C9_pause_resume_idempotent (s : Schedule) :
    (∃ s1, pauseSchedule s = .ok s1) ∧
    (∃ s1, resumeSchedule s = .ok s1) ∧
    (s.is_active = false → pauseSchedule s = .ok s) ∧
    (s.is_active = true → resumeSchedule s = .ok s) ∧
    (∀ s1, pauseSchedule s = .ok s1 → pauseSchedule s1 = .ok s1) ∧
    (∀ s1, resumeSchedule s = .ok s1 → resumeSchedule s1 = .ok s1) := by
  refine ⟨⟨_, rfl⟩, ⟨_, rfl⟩, pause_already_paused s, resume_already_active s,
    ?_, ?_⟩
  · intro s1 h
    rw [pauseSchedule] at h
    injection h with h1
    rw [← h1]
    exact pause_already_paused _ rfl
  · intro s1 h
    rw [resumeSchedule] at h
    injection h with h1
    rw [← h1]
    exact resume_already_active _ rfl

/-- Witness for C9 on the sample schedule in both states. -/
theorem C9_pause_resume_idempotent_witness :
    (samplePaused.is_active = false ∧
      pauseSchedule samplePaused = .ok samplePaused) ∧
    (sampleActive.is_active = true ∧
      resumeSchedule sampleActive = .ok sampleActive) ∧
    pauseSchedule samplePaused = .ok samplePaused ∧
    resumeSchedule sampleActive = .ok sampleActive :=
  ⟨⟨rfl, (C9_pause_resume_idempotent samplePaused).2.2.1 rfl⟩,
   ⟨rfl, (C9_pause_resume_idempotent sampleActive).2.2.2.1 rfl⟩,
   (C9_pause_resume_idempotent sampleActive).2.2.2.2.1 samplePaused rfl,
   (C9_pause_resume_idempotent samplePaused).2.2.2.2.2 sampleActive rfl⟩

/-! ## Orchestrator and storage lemmas -/

/-- C3: a session whose validity verdict is `is_valid = false` (capture
succeeded, storage permitted and available) still terminates SUCCEEDED,
stores the artifact, records `monetizable = false`, and creates zero
earning events. -/
theorem C3_invalid_verdict_not_failure (userId sessionId : Nat)
    (keyHint : List Char) (rate : Int) (env : SessionEnv) (b : List Nat)
    (hcap : env.capture = .captured b)
    (hinvalid : env.verdict.is_valid = false)
    (hstorable : env.consent.forbidsStorage = false)
    (hwrite : primarySucceeds env.primaryAttempts = true ∨ env.fallbackOk = true) :
    (runSession userId sessionId keyHint rate env).status = .succeeded ∧
    (∃ tier, (runSession userId sessionId keyHint rate env).artifact
        = some ⟨sessionId, some keyHint, some tier, false, false⟩) ∧
    (runSession userId sessionId keyHint rate env).earnings = [] := by
  by_cases hp : primarySucceeds env.primaryAttempts = true
  · refine ⟨?_, ⟨.primary, ?_⟩, ?_⟩ <;>
      simp [runSession, hcap, hinvalid, hstorable, store, hp]
  · have hf : env.fallbackOk = true := by
      rcases hwrite with h | h
      · exact absurd h hp
      · exact h
    refine ⟨?_, ⟨.fallback, ?_⟩, ?_⟩ <;>
      simp [runSession, hcap, hinvalid, hstorable, store, hp, hf]

/-- Witness for C3 on the sample environment (invalid verdict, third
primary attempt succeeds). -/
theorem C3_invalid_verdict_not_failure_witness :
    (sampleEnv.capture = .captured [7, 7, 7] ∧
      sampleEnv.verdict.is_valid = false ∧
      sampleEnv.consent.forbidsStorage = false ∧
      primarySucceeds sampleEnv.primaryAttempts = true) ∧
    ((runSession 1 1 ['u', '1', '/', 'p'] 5 sampleEnv).status = .succeeded ∧
      (∃ tier, (runSession 1 1 ['u', '1', '/', 'p'] 5 sampleEnv).artifact
          = some ⟨1, some ['u', '1', '/', 'p'], some tier, false, false⟩) ∧
      (runSession 1 1 ['u', '1', '/', 'p'] 5 sampleEnv).earnings = []) :=
  ⟨⟨by decide, by decide, by decide, by decide⟩,
    C3_invalid_verdict_not_failure 1 1 ['u', '1', '/', 'p'] 5 sampleEnv [7, 7, 7]
      (by decide) (by decide) (by decide) (Or.inl (by decide))⟩

/-- C4: the storage writer yields tier PRIMARY when some primary
attempt succeeds, falls back to tier FALLBACK when all primary attempts
fail and the fallback succeeds, and fails with `StorageUnavailable`
when both are exhausted — in which case the orchestrator marks the
session FAILED with reason `storage_error` and records no artifact; and
no stored-artifact record exists without a successful write. -/
theorem C4_storage_fallback_policy (keyHint : List Char) (pa : List Bool)
    (fb : Bool) (userId sessionId : Nat) (rate : Int) (env : SessionEnv) :
    (primarySucceeds pa = true → store keyHint pa fb = .ok (keyHint, .primary)) ∧
    (primarySucceeds pa = false → fb = true →
      store keyHint pa fb = .ok (keyHint, .fallback)) ∧
    (primarySucceeds pa = false → fb = false →
      store keyHint pa fb = .error .storageUnavailable) ∧
    (store keyHint env.primaryAttempts env.fallbackOk
        = .error .storageUnavailable →
      env.consent.forbidsStorage = false →
      ∀ b, env.capture = .captured b →
        (runSession userId sessionId keyHint rate env).status = .failed ∧
        (runSession userId sessionId keyHint rate env).failure_reason
          = some "storage_error" ∧
        (runSession userId sessionId keyHint rate env).artifact = none ∧
        (runSession userId sessionId keyHint rate env).earnings = []) ∧
    (∀ a, (runSession userId sessionId keyHint rate env).artifact = some a →
      a.storage_key.isSome = true →
      ∃ kt, store keyHint env.primaryAttempts env.fallbackOk = .ok kt) := by
  refine ⟨?_, ?_, ?_, ?_, ?_⟩
  · intro h
    rw [store, if_pos h]
  · intro h1 h2
    rw [store, if_neg (by simp [h1]), if_pos h2]
  · intro h1 h2
    rw [store, if_neg (by simp [h1]), if_neg (by simp [h2])]
  · intro hs hst b hb
    refine ⟨?_, ?_, ?_, ?_⟩ <;> simp [runSession, hb, hst, hs]
  · intro a ha hk
    cases hc : env.capture with
    | captureFailed d =>
        simp [runSession, hc] at ha
    | captured b =>
        by_cases hfs : env.consent.forbidsStorage = true
        · simp [runSession, hc, hfs] at ha
          rw [← ha] at hk
          simp at hk
        · cases hst : store keyHint env.primaryAttempts env.fallbackOk with
          | error e =>
              cases e
              simp [runSession, hc, hfs, hst] at ha
          | ok kt => exact ⟨kt, rfl⟩

/-- Witness for C4: three failed primary attempts, fallback succeeds
(tier FALLBACK); with the fallback also down the call fails and the
sample session is marked FAILED. -/
theorem C4_storage_fallback_policy_witness :
    (primarySucceeds [false, false, false] = false ∧
      store ['k'] [false, false, false] true = .ok (['k'], .fallback) ∧
      store ['k'] [false, false, false] false = .error .storageUnavailable) ∧
    ((runSession 1 1 ['k'] 5
        ⟨.captured [7], ⟨true, ""⟩, ⟨true, false⟩, [false, false, false], false⟩).status
          = .failed ∧
      (runSession 1 1 ['k'] 5
        ⟨.captured [7], ⟨true, ""⟩, ⟨true, false⟩, [false, false, false], false⟩).failure_reason
          = some "storage_error" ∧
      (runSession 1 1 ['k'] 5
        ⟨.captured [7], ⟨true, ""⟩, ⟨true, false⟩, [false, false, false], false⟩).artifact
          = none ∧
      (runSession 1 1 ['k'] 5
        ⟨.captured [7], ⟨true, ""⟩, ⟨true, false⟩, [false, false, false], false⟩).earnings
          = []) :=
  ⟨⟨by decide,
     (C4_storage_fallback_policy ['k'] [false, false, false] true 1 1 5
       ⟨.captured [7], ⟨true, ""⟩, ⟨true, false⟩, [false, false, false], false⟩).2.1
       (by decide) (by decide),
     (C4_storage_fallback_policy ['k'] [false, false, false] false 1 1 5
       ⟨.captured [7], ⟨true, ""⟩, ⟨true, false⟩, [false, false, false], false⟩).2.2.1
       (by decide) (by decide)⟩,
   (C4_storage_fallback_policy ['k'] [false, false, false] false 1 1 5
     ⟨.captured [7], ⟨true, ""⟩, ⟨true, false⟩, [false, false, false], false⟩).2.2.2.1
     rfl (by decide) [7] (by decide)⟩

/-! ## Storage key and object-store lemmas -/

theorem keyOwner_makeKey (u tsId ext : List Char)
    (h : ('/' : Char) ∉ u) : keyOwner (makeKey u tsId ext) = u := by
  induction u with
  | nil => simp [makeKey, keyOwner]
  | cons c cs ih =>
      have hc : c ≠ '/' := by
        intro hh
        exact h (by rw [hh]; exact List.mem_cons_self _ _)
      rw [makeKey, List.cons_append, keyOwner, if_neg hc]
      have h2 : ('/' : Char) ∉ cs := fun hh => h (List.mem_cons_of_mem _ hh)
      show c :: keyOwner (makeKey cs tsId ext) = c :: cs
      rw [ih h2]

theorem putObject_idem (k : List Char) (b : List Nat) (s : ObjectStore) :
    putObject k b (putObject k b s) = putObject k b s := by
  induction s with
  | nil =>
      rw [putObject, putObject, if_pos]
      rfl
  | cons e es ih =>
      by_cases he : e.1 = k
      · rw [putObject, if_pos he, putObject, if_pos]
        rfl
      · rw [putObject, if_neg he, putObject, if_neg he, ih]

/-- C7: storage keys are namespaced per user
(`user_id/timestamp_id.ext`), so keys of users with distinct
(slash-free) ids never collide; and re-attempting a PUT with the same
key and bytes leaves the object store exactly as after one PUT — no
duplicate artifact. -/
theorem C7_key_namespacing_idempotent (u1 u2 tsA extA tsB extB : List Char)
    (k : List Char) (b : List Nat) (s : ObjectStore)
    (h1 : ('/' : Char) ∉ u1) (h2 : ('/' : Char) ∉ u2) (hne : u1 ≠ u2) :
    makeKey u1 tsA extA ≠ makeKey u2 tsB extB ∧
    putObject k b (putObject k b s) = putObject k b s := by
  refine ⟨fun he => hne ?_, putObject_idem k b s⟩
  rw [← keyOwner_makeKey u1 tsA extA h1, he, keyOwner_makeKey u2 tsB extB h2]

/-- Witness for C7 on two concrete user ids and a singleton store. -/
theorem C7_key_namespacing_idempotent_witness :
    (('/' : Char) ∉ ['u', '1'] ∧ ('/' : Char) ∉ ['u', '2'] ∧
      (['u', '1'] : List Char) ≠ ['u', '2']) ∧
    (makeKey ['u', '1'] ['t'] ['j'] ≠ makeKey ['u', '2'] ['t'] ['j'] ∧
      putObject ['k'] [1] (putObject ['k'] [1] ([] : ObjectStore))
        = putObject ['k'] [1] ([] : ObjectStore)) :=
  ⟨⟨by decide, by decide, by decide⟩,
    C7_key_namespacing_idempotent ['u', '1'] ['u', '2'] ['t'] ['j'] ['t'] ['j']
      ['k'] [1] ([] : ObjectStore) (by decide) (by decide) (by decide)⟩

/-- C8: a manual trigger appends a capture session whose `schedule_id`
is null and returns immediately with that session's id; the response
and the created session are the same whatever the schedules are — no
due-check is consulted. -/
theorem C8_manual_trigger_null_schedule (u : String) (st : SchedulerState) :
    (triggerManualCapture u st).1.sessions
      = st.sessions ++
        [⟨(triggerManualCapture u st).2.capture_session_id, u, none, .pending⟩] ∧
    (triggerManualCapture u st).2.success = true ∧
    (triggerManualCapture u st).2.capture_session_id = st.nextSessionId ∧
    (∀ ss : List Schedule,
      (triggerManualCapture u { st with schedules := ss }).2
        = (triggerManualCapture u st).2) ∧
    (∀ ss : List Schedule,
      (triggerManualCapture u { st with schedules := ss }).1.sessions
        = (triggerManualCapture u st).1.sessions) :=
  ⟨rfl, rfl, rfl, fun _ => rfl, fun _ => rfl⟩

/-! ## User-deletion cascade lemmas -/

/-- C10: deleting a user removes, by cascade, all of that user's
earning_events rows, their earning_balances row, and all their
user_consent rows, while their photos rows are all retained (same ids)
with `user_id` set to null. -/
theorem C10_deleteUser_cascades (uid : Nat) (db : Db) :
    (∀ e ∈ (deleteUser uid db).earning_events, e.user_id ≠ uid) ∧
    (∀ b ∈ (deleteUser uid db).earning_balances, b.user_id ≠ uid) ∧
    (∀ c ∈ (deleteUser uid db).user_consent, c.user_id ≠ uid) ∧
    (deleteUser uid db).photos.map PhotoRow.id = db.photos.map PhotoRow.id ∧
    (∀ p ∈ (deleteUser uid db).photos, p.user_id ≠ some uid) ∧
    (∀ p ∈ db.photos, p.user_id = some uid →
        { p with user_id := none } ∈ (deleteUser uid db).photos) := by
  refine ⟨?_, ?_, ?_, ?_, ?_, ?_⟩
  · intro e he
    rw [deleteUser] at he
    simp only [List.mem_filter, bne_iff_ne, ne_eq] at he
    exact he.2
  · intro b hb
    rw [deleteUser] at hb
    simp only [List.mem_filter, bne_iff_ne, ne_eq] at hb
    exact hb.2
  · intro c hc
    rw [deleteUser] at hc
    simp only [List.mem_filter, bne_iff_ne, ne_eq] at hc
    exact hc.2
  · rw [deleteUser]
    simp only [List.map_map]
    apply List.map_congr_left
    intro p _
    by_cases h : p.user_id = some uid <;> simp [h]
  · intro p hp
    rw [deleteUser] at hp
    simp only [List.mem_map] at hp
    obtain ⟨q, _, rfl⟩ := hp
    by_cases h : q.user_id = some uid <;> simp [h]
  · intro p hp h
    rw [deleteUser]
    simp only [List.mem_map]
    exact ⟨p, hp, by rw [if_pos h]⟩

/-- Witness for C10 on the sample database, deleting user 1. -/
theorem C10_deleteUser_cascades_witness :
    (∀ e ∈ (deleteUser 1 sampleDb).earning_events, e.user_id ≠ 1) ∧
    (∀ b ∈ (deleteUser 1 sampleDb).earning_balances, b.user_id ≠ 1) ∧
    (∀ c ∈ (deleteUser 1 sampleDb).user_consent, c.user_id ≠ 1) ∧
    (deleteUser 1 sampleDb).photos.map PhotoRow.id
      = sampleDb.photos.map PhotoRow.id ∧
    (∀ p ∈ (deleteUser 1 sampleDb).photos, p.user_id ≠ some 1) ∧
    (∀ p ∈ sampleDb.photos, p.user_id = some 1 →
        { p with user_id := none } ∈ (deleteUser 1 sampleDb).photos) :=
  C10_deleteUser_cascades 1 sampleDb

end SourceAi
